import Mathlib

/-
  Verification development for the Discovery login-request server
  (src/server.js).

  The server exposes an HTTP API over a storage backend.  Each API handler
  starts with the guard

    if (!process.env.DATABASE_URL && !process.env.NODE_ENV === 'production')

  (src/server.js line 100 and its copies) which is meant to select the
  in-process mock database; the mock-branch bodies implement the ephemeral
  backend: a process-local list of login requests, a list of login attempts,
  and an id counter seeded at 1 (lines 26-35).

  This file embeds, faithfully to the JavaScript source:
    - the guard expression, over a small model of JavaScript values
      (truthiness, strict equality), because its parse is
      `(!DATABASE_URL) && ((!NODE_ENV) === 'production')`;
    - the mock-branch bodies of every handler (submit, listPending,
      listAll, getById, approve, reject, statistics) as pure state
      transformers over `MockData`, with `new Date()` modelled as a single
      per-handler-invocation timestamp `now : Nat`;
    - traces of handler invocations (`run`), giving the reachable states.
-/

namespace Discovery

/-- Model of the JavaScript values that occur in the handler guard:
strings (e.g. the value of an environment variable), booleans (the result
of `!`), and `undefined` (an unset environment variable). -/
inductive JSVal where
  | str (s : String)
  | boolean (b : Bool)
  | undef
deriving DecidableEq, Repr

/-- JavaScript truthiness: the empty string, `false` and `undefined` are
falsy; every other string and `true` are truthy. -/
def jsTruthy : JSVal → Bool
  | .str s => !(s == "")
  | .boolean b => b
  | .undef => false

/-- JavaScript logical negation `!v`: a boolean. -/
def jsNot (v : JSVal) : JSVal := .boolean (!jsTruthy v)

/-- JavaScript strict equality `===`: values of different types are never
strictly equal. -/
def jsStrictEq : JSVal → JSVal → Bool
  | .str a, .str b => a == b
  | .boolean a, .boolean b => a == b
  | .undef, .undef => true
  | _, _ => false

/-- The mock-database guard of every handler (src/server.js line 100):
`!process.env.DATABASE_URL && !process.env.NODE_ENV === 'production'`.
By JavaScript operator precedence (`!` over `===` over `&&`) this is
`(!DATABASE_URL) && ((!NODE_ENV) === 'production')`. -/
def usingMockDb (databaseUrl nodeEnv : JSVal) : Bool :=
  jsTruthy (jsNot databaseUrl) && jsStrictEq (jsNot nodeEnv) (.str "production")

/-- A stored login request (mock branch of src/server.js lines 101-109;
timestamps are abstracted to naturals, statuses kept as strings). -/
structure LoginRequest where
  id : Nat
  username : String
  password : String
  ip_address : String
  status : String
  created_at : Nat
  updated_at : Nat
deriving DecidableEq, Repr

/-- A stored login attempt (mock branch of src/server.js lines 210-216). -/
structure LoginAttempt where
  id : Nat
  username : String
  ip_address : String
  status : String
  created_at : Nat
deriving DecidableEq, Repr

/-- The mock database state: `mockData` (src/server.js lines 26-29)
together with the id counter `nextId` (line 32). -/
structure MockData where
  login_requests : List LoginRequest
  login_attempts : List LoginAttempt
  nextId : Nat
deriving DecidableEq, Repr

/-- The state at startup: empty collections, id counter seeded at 1. -/
def mockDataInit : MockData :=
  { login_requests := [], login_attempts := [], nextId := 1 }

/-- JavaScript `x || dflt` for an optional string: the default is taken
when the value is absent or falsy (the empty string). -/
def jsOrString (x : Option String) (dflt : String) : String :=
  match x with
  | none => dflt
  | some s => if s == "" then dflt else s

/-- JavaScript `Array.prototype.findIndex`: index of the first element
satisfying `p`, `none` when there is none (JavaScript returns `-1`). -/
def findIndexOf (p : α → Bool) : List α → Option Nat
  | [] => none
  | a :: l => if p a then some 0 else (findIndexOf p l).map (· + 1)

/-- POST /api/login-requests, mock branch (src/server.js lines 101-112):
build the new request with a fresh id, push it, return it. -/
def submitRequest (st : MockData) (username password : String)
    (ipAddress : Option String) (now : Nat) : MockData × LoginRequest :=
  let newRequest : LoginRequest :=
    { id := st.nextId
      username := username
      password := password
      ip_address := jsOrString ipAddress "127.0.0.1"
      status := "pending"
      created_at := now
      updated_at := now }
  ({ st with
      login_requests := st.login_requests ++ [newRequest]
      nextId := st.nextId + 1 },
   newRequest)

/-- GET /api/login-requests/pending, mock branch (src/server.js line 132). -/
def listPending (st : MockData) : List LoginRequest :=
  st.login_requests.filter (fun r => r.status == "pending")

/-- GET /api/login-requests, mock branch (src/server.js line 153): the
stored list is returned as-is, in insertion order. -/
def listAll (st : MockData) : List LoginRequest :=
  st.login_requests

/-- GET /api/login-requests/:id, mock branch (src/server.js lines 171-175):
`find` on the stored list, 404 (here `none`) when absent. -/
def getRequestById (st : MockData) (id : Nat) : Option LoginRequest :=
  st.login_requests.find? (fun r => r.id == id)

/-- PUT /api/login-requests/:id/approve, mock branch (src/server.js lines
201-218): find the request, set status `approved` and `updated_at`, push an
attempt record with a fresh id, return the updated request; `none` models
the 404 when the id is absent. -/
def approveRequest (st : MockData) (id now : Nat) :
    Option (MockData × LoginRequest) :=
  match findIndexOf (fun r => r.id == id) st.login_requests with
  | none => none
  | some i =>
    match st.login_requests[i]? with
    | none => none
    | some r =>
      let updated : LoginRequest := { r with status := "approved", updated_at := now }
      let att : LoginAttempt :=
        { id := st.nextId
          username := updated.username
          ip_address := updated.ip_address
          status := "approved"
          created_at := now }
      some ({ login_requests := st.login_requests.set i updated
              login_attempts := st.login_attempts ++ [att]
              nextId := st.nextId + 1 },
            updated)

/-- PUT /api/login-requests/:id/reject, mock branch (src/server.js lines
251-268): identical to approve with status `rejected`. -/
def rejectRequest (st : MockData) (id now : Nat) :
    Option (MockData × LoginRequest) :=
  match findIndexOf (fun r => r.id == id) st.login_requests with
  | none => none
  | some i =>
    match st.login_requests[i]? with
    | none => none
    | some r =>
      let updated : LoginRequest := { r with status := "rejected", updated_at := now }
      let att : LoginAttempt :=
        { id := st.nextId
          username := updated.username
          ip_address := updated.ip_address
          status := "rejected"
          created_at := now }
      some ({ login_requests := st.login_requests.set i updated
              login_attempts := st.login_attempts ++ [att]
              nextId := st.nextId + 1 },
            updated)

/-- The statistics record returned by GET /api/statistics. -/
structure Stats where
  total : Nat
  approved : Nat
  rejected : Nat
  pending : Nat
  today : Nat
deriving DecidableEq, Repr

/-- GET /api/statistics, mock branch (src/server.js lines 299-317);
`todayStart` models the midnight timestamp computed by the handler. -/
def computeStats (st : MockData) (todayStart : Nat) : Stats :=
  { total := st.login_requests.length
    approved := (st.login_requests.filter (fun r => r.status == "approved")).length
    rejected := (st.login_requests.filter (fun r => r.status == "rejected")).length
    pending := (st.login_requests.filter (fun r => r.status == "pending")).length
    today := (st.login_requests.filter (fun r => todayStart ≤ r.created_at)).length }

/-- A state-mutating handler invocation. -/
inductive Op where
  | submit (username password : String) (ipAddress : Option String)
  | approve (id : Nat)
  | reject (id : Nat)
deriving DecidableEq, Repr

/-- Apply one handler invocation at time `now`; a failed resolve (404)
leaves the state unchanged. -/
def applyOp (st : MockData) (op : Op) (now : Nat) : MockData :=
  match op with
  | .submit u p ip => (submitRequest st u p ip now).1
  | .approve id =>
    match approveRequest st id now with
    | some (st', _) => st'
    | none => st
  | .reject id =>
    match rejectRequest st id now with
    | some (st', _) => st'
    | none => st

/-- Run a timed trace of handler invocations from a given state. -/
def runFrom (st : MockData) (events : List (Op × Nat)) : MockData :=
  events.foldl (fun s e => applyOp s e.1 e.2) st

/-- Run a timed trace from the startup state. -/
def run (events : List (Op × Nat)) : MockData :=
  runFrom mockDataInit events

/-- A state is reachable when some timed trace of handler invocations
produces it from the startup state. -/
def Reachable (st : MockData) : Prop :=
  ∃ events : List (Op × Nat), run events = st

/-- Common shape of the two resolve handlers: approve and reject differ
only in the terminal status they write.  `approveRequest` and
`rejectRequest` are definitionally `resolveWith` at their outcome. -/
def resolveWith (st : MockData) (id : Nat) (outcome : String) (now : Nat) :
    Option (MockData × LoginRequest) :=
  match findIndexOf (fun r => r.id == id) st.login_requests with
  | none => none
  | some i =>
    match st.login_requests[i]? with
    | none => none
    | some r =>
      let updated : LoginRequest := { r with status := outcome, updated_at := now }
      let att : LoginAttempt :=
        { id := st.nextId
          username := updated.username
          ip_address := updated.ip_address
          status := outcome
          created_at := now }
      some ({ login_requests := st.login_requests.set i updated
              login_attempts := st.login_attempts ++ [att]
              nextId := st.nextId + 1 },
            updated)

/-- Number of stored login attempts carrying username `u`
(the left-hand side of the spec's audit invariant). -/
def attemptCountFor (st : MockData) (u : String) : Nat :=
  (st.login_attempts.filter (fun a => a.username == u)).length

/-- Number of stored login requests carrying username `u` whose status is
not `pending` (the right-hand side of the spec's audit invariant). -/
def resolvedCountFor (st : MockData) (u : String) : Nat :=
  (st.login_requests.filter (fun r => r.username == u && !(r.status == "pending"))).length

/-- A resolve of `id` in state `st` is not a re-resolution: either the id
is absent (the call 404s) or the targeted record is still pending. -/
def resolveTargetsPendingOk (st : MockData) (id : Nat) : Bool :=
  match getRequestById st id with
  | some r => r.status == "pending"
  | none => true

/-- An operation is not a re-resolution in state `st`: submits always
qualify, resolves only when their target (when present) is pending. -/
def opGuardOk (st : MockData) : Op → Bool
  | .approve id => resolveTargetsPendingOk st id
  | .reject id => resolveTargetsPendingOk st id
  | .submit _ _ _ => true

/-- A timed trace never resolves an already-terminal record: at each
approve or reject event, the targeted record (when present) is pending. -/
def traceNoReResolve (st : MockData) : List (Op × Nat) → Bool
  | [] => true
  | (op, now) :: rest =>
    opGuardOk st op && traceNoReResolve (applyOp st op now) rest

/-- Creation timestamps of the stored requests, in storage order. -/
def createdAts (st : MockData) : List Nat :=
  (listAll st).map (fun r => r.created_at)

/-- A status string actually written by the handlers. -/
def statusOk (r : LoginRequest) : Bool :=
  r.status == "pending" || r.status == "approved" || r.status == "rejected"

/-- Example trace: one submission with an explicit ip address. -/
def exSubmitEvents : List (Op × Nat) :=
  [(.submit "alice" "pw1" (some "10.0.0.1"), 1)]

/-- The state after `exSubmitEvents`. -/
def exSubmitted : MockData := run exSubmitEvents

/-- The single record stored by `exSubmitEvents`. -/
def exReqPending : LoginRequest :=
  { id := 1, username := "alice", password := "pw1", ip_address := "10.0.0.1"
    status := "pending", created_at := 1, updated_at := 1 }

/-- `exReqPending` after approval at time 2. -/
def exReqApproved : LoginRequest :=
  { id := 1, username := "alice", password := "pw1", ip_address := "10.0.0.1"
    status := "approved", created_at := 1, updated_at := 2 }

/-- The attempt record logged by that approval. -/
def exAttemptApproved : LoginAttempt :=
  { id := 2, username := "alice", ip_address := "10.0.0.1"
    status := "approved", created_at := 2 }

/-- The state after submitting and then approving request 1 at time 2. -/
def exStApproved : MockData :=
  { login_requests := [exReqApproved]
    login_attempts := [exAttemptApproved]
    nextId := 3 }

/-- Example trace: a request is approved twice (re-resolution). -/
def exDoubleApprove : List (Op × Nat) :=
  [(.submit "alice" "pw" none, 1), (.approve 1, 2), (.approve 1, 3)]

/-- Example trace: two submissions at increasing times. -/
def exTwoSubmits : List (Op × Nat) :=
  [(.submit "a" "p1" none, 1), (.submit "b" "p2" none, 2)]

/-- First record stored by `exTwoSubmits`. -/
def exReqA : LoginRequest :=
  { id := 1, username := "a", password := "p1", ip_address := "127.0.0.1"
    status := "pending", created_at := 1, updated_at := 1 }

/-- Second record stored by `exTwoSubmits`. -/
def exReqB : LoginRequest :=
  { id := 2, username := "b", password := "p2", ip_address := "127.0.0.1"
    status := "pending", created_at := 2, updated_at := 2 }

/-- Example trace: submission and approval in the same clock tick. -/
def exSameTick : List (Op × Nat) :=
  [(.submit "bob" "pw" none, 5), (.approve 1, 5)]

/-- The record stored by `exSameTick` after approval. -/
def exReqSameTick : LoginRequest :=
  { id := 1, username := "bob", password := "pw", ip_address := "127.0.0.1"
    status := "approved", created_at := 5, updated_at := 5 }

/-! Helper lemmas about `findIndexOf`, `List.find?`, `List.set` and
`List.countP`. -/

lemma findIndexOf_some {α : Type} {p : α → Bool} {l : List α} {i : Nat}
    (h : findIndexOf p l = some i) :
    ∃ r, l[i]? = some r ∧ p r = true ∧ l.find? p = some r := by
  induction l generalizing i with
  | nil => simp [findIndexOf] at h
  | cons a t ih =>
    by_cases hp : p a = true
    · simp [findIndexOf, hp] at h
      subst h
      exact ⟨a, by simp, hp, by rw [List.find?_cons_of_pos _ hp]⟩
    · simp [findIndexOf, hp] at h
      obtain ⟨j, hj, hij⟩ := h
      obtain ⟨r, hr1, hr2, hr3⟩ := ih hj
      subst hij
      refine ⟨r, by simpa using hr1, hr2, ?_⟩
      rw [List.find?_cons_of_neg _ (by simpa using hp)]
      exact hr3

lemma findIndexOf_none {α : Type} {p : α → Bool} {l : List α}
    (h : findIndexOf p l = none) : l.find? p = none := by
  induction l with
  | nil => simp
  | cons a t ih =>
    by_cases hp : p a = true
    · simp [findIndexOf, hp] at h
    · simp [findIndexOf, hp] at h
      rw [List.find?_cons_of_neg _ (by simpa using hp)]
      exact ih h

lemma findIndexOf_of_find? {α : Type} {p : α → Bool} {l : List α} {r : α}
    (h : l.find? p = some r) :
    ∃ i, findIndexOf p l = some i ∧ l[i]? = some r := by
  induction l with
  | nil => simp at h
  | cons a t ih =>
    by_cases hp : p a = true
    · rw [List.find?_cons_of_pos _ hp] at h
      cases h
      exact ⟨0, by simp [findIndexOf, hp], by simp⟩
    · rw [List.find?_cons_of_neg _ (by simpa using hp)] at h
      obtain ⟨i, h1, h2⟩ := ih h
      exact ⟨i + 1, by simp [findIndexOf, hp, h1], by simpa using h2⟩

lemma find?_set_of_findIndexOf {α : Type} {p : α → Bool} {l : List α} {i : Nat}
    {x : α} (h : findIndexOf p l = some i) (hx : p x = true) :
    (l.set i x).find? p = some x := by
  induction l generalizing i with
  | nil => simp [findIndexOf] at h
  | cons a t ih =>
    by_cases hp : p a = true
    · simp [findIndexOf, hp] at h
      subst h
      simpa [List.set] using List.find?_cons_of_pos _ hx
    · simp [findIndexOf, hp] at h
      obtain ⟨j, hj, hij⟩ := h
      subst hij
      rw [show (a :: t).set (j + 1) x = a :: t.set j x from rfl,
        List.find?_cons_of_neg _ (by simpa using hp)]
      exact ih hj

lemma countP_set_of_getElem {α : Type} {q : α → Bool} {l : List α} {i : Nat}
    {r x : α} (h : l[i]? = some r) :
    (l.set i x).countP q + (if q r then 1 else 0)
      = l.countP q + (if q x then 1 else 0) := by
  induction l generalizing i with
  | nil => simp at h
  | cons a t ih =>
    cases i with
    | zero =>
      simp only [List.getElem?_cons_zero, Option.some.injEq] at h
      subst h
      simp only [List.set, List.countP_cons]
      omega
    | succ j =>
      simp only [List.getElem?_cons_succ] at h
      have := ih h
      simp only [List.set, List.countP_cons]
      omega

lemma set_getElem_self {α : Type} {l : List α} {i : Nat} {v : α}
    (h : l[i]? = some v) : l.set i v = l := by
  induction l generalizing i with
  | nil => simp at h
  | cons a t ih =>
    cases i with
    | zero =>
      simp only [List.getElem?_cons_zero, Option.some.injEq] at h
      subst h
      rfl
    | succ j =>
      simp only [List.getElem?_cons_succ] at h
      simpa [List.set] using ih h

lemma runFrom_cons (st : MockData) (e : Op × Nat) (rest : List (Op × Nat)) :
    runFrom st (e :: rest) = runFrom (applyOp st e.1 e.2) rest := rfl

lemma approveRequest_eq_resolveWith (st : MockData) (id now : Nat) :
    approveRequest st id now = resolveWith st id "approved" now := rfl

lemma rejectRequest_eq_resolveWith (st : MockData) (id now : Nat) :
    rejectRequest st id now = resolveWith st id "rejected" now := rfl

lemma resolveWith_found {st : MockData} {id : Nat} {outcome : String}
    {now : Nat} {i : Nat} {r : LoginRequest}
    (hidx : findIndexOf (fun q => q.id == id) st.login_requests = some i)
    (hget : st.login_requests[i]? = some r) :
    resolveWith st id outcome now = some
      ({ login_requests :=
           st.login_requests.set i { r with status := outcome, updated_at := now }
         login_attempts := st.login_attempts ++
           [{ id := st.nextId, username := r.username, ip_address := r.ip_address
              status := outcome, created_at := now }]
         nextId := st.nextId + 1 },
       { r with status := outcome, updated_at := now }) := by
  simp [resolveWith, hidx, hget]

lemma resolveWith_some_elim {st st' : MockData} {id : Nat} {outcome : String}
    {now : Nat} {r' : LoginRequest}
    (h : resolveWith st id outcome now = some (st', r')) :
    ∃ i r, findIndexOf (fun q => q.id == id) st.login_requests = some i ∧
      st.login_requests[i]? = some r ∧
      st.login_requests.find? (fun q => q.id == id) = some r ∧
      (r.id == id) = true ∧
      r' = { r with status := outcome, updated_at := now } ∧
      st' = { login_requests := st.login_requests.set i r'
              login_attempts := st.login_attempts ++
                [{ id := st.nextId, username := r.username, ip_address := r.ip_address
                   status := outcome, created_at := now }]
              nextId := st.nextId + 1 } := by
  unfold resolveWith at h
  split at h
  · exact absurd h (by simp)
  next i hidx =>
    split at h
    · exact absurd h (by simp)
    next r hget =>
      obtain ⟨rr, hrr1, hrr2, hrr3⟩ := findIndexOf_some hidx
      rw [hget] at hrr1
      cases hrr1
      simp only [Option.some.injEq, Prod.mk.injEq] at h
      obtain ⟨hst, hr⟩ := h
      subst hst
      subst hr
      exact ⟨i, r, hidx, hget, hrr3, hrr2, rfl, rfl⟩

lemma counts_resolveWith {st st1 : MockData} {id now : Nat}
    {outcome : String} {r1 : LoginRequest}
    (houtcome : (outcome == "pending") = false)
    (hok : resolveTargetsPendingOk st id = true)
    (hres : resolveWith st id outcome now = some (st1, r1))
    (h : ∀ u, attemptCountFor st u = resolvedCountFor st u) :
    ∀ u, attemptCountFor st1 u = resolvedCountFor st1 u := by
  intro u
  obtain ⟨i, r, hidx, hget, hfind, hid, hr1, hst1⟩ := resolveWith_some_elim hres
  have hstat : r.status = "pending" := by
    unfold resolveTargetsPendingOk getRequestById at hok
    rw [hfind] at hok
    simpa using hok
  have hc := @countP_set_of_getElem LoginRequest
    (fun x : LoginRequest => x.username == u && !(x.status == "pending"))
    st.login_requests i r r1 hget
  rw [List.countP_eq_length_filter, List.countP_eq_length_filter] at hc
  have ha := h u
  unfold attemptCountFor resolvedCountFor at ha ⊢
  subst hst1
  subst hr1
  simp only [List.filter_append, List.length_append]
  by_cases hru : r.username = u
  · simp [hstat, hru, houtcome] at hc ⊢
    omega
  · simp [hstat, hru, houtcome] at hc ⊢
    omega

lemma counts_applyOp {st : MockData} {op : Op} {now : Nat}
    (hok : opGuardOk st op = true)
    (h : ∀ u, attemptCountFor st u = resolvedCountFor st u) :
    ∀ u, attemptCountFor (applyOp st op now) u
      = resolvedCountFor (applyOp st op now) u := by
  cases op with
  | submit u2 p2 ip2 =>
    intro u
    have ha := h u
    unfold attemptCountFor resolvedCountFor at ha ⊢
    simpa [applyOp, submitRequest, List.filter_append] using ha
  | approve id =>
    have hok2 : resolveTargetsPendingOk st id = true := hok
    rcases hres : resolveWith st id "approved" now with _ | ⟨st1, r1⟩
    · intro u
      simpa [applyOp, approveRequest_eq_resolveWith, hres] using h u
    · intro u
      have hc := counts_resolveWith (by decide) hok2 hres h
      simpa [applyOp, approveRequest_eq_resolveWith, hres] using hc u
  | reject id =>
    have hok2 : resolveTargetsPendingOk st id = true := hok
    rcases hres : resolveWith st id "rejected" now with _ | ⟨st1, r1⟩
    · intro u
      simpa [applyOp, rejectRequest_eq_resolveWith, hres] using h u
    · intro u
      have hc := counts_resolveWith (by decide) hok2 hres h
      simpa [applyOp, rejectRequest_eq_resolveWith, hres] using hc u

lemma counts_runFrom (events : List (Op × Nat)) :
    ∀ st, traceNoReResolve st events = true →
      (∀ u, attemptCountFor st u = resolvedCountFor st u) →
      ∀ u, attemptCountFor (runFrom st events) u
        = resolvedCountFor (runFrom st events) u := by
  induction events with
  | nil =>
    intro st _ h
    exact h
  | cons e rest ih =>
    intro st htr h
    obtain ⟨op, now⟩ := e
    simp only [traceNoReResolve, Bool.and_eq_true] at htr
    exact ih _ htr.2 (counts_applyOp htr.1 h)

lemma statusOk_applyOp {st : MockData} {op : Op} {now : Nat}
    (h : ∀ r ∈ st.login_requests, statusOk r = true) :
    ∀ r ∈ (applyOp st op now).login_requests, statusOk r = true := by
  cases op with
  | submit u2 p2 ip2 =>
    intro r hr
    simp only [applyOp, submitRequest, List.mem_append, List.mem_singleton] at hr
    rcases hr with hr | hr
    · exact h r hr
    · subst hr
      simp [statusOk]
  | approve id =>
    rcases hres : resolveWith st id "approved" now with _ | ⟨st1, r1⟩
    · simpa [applyOp, approveRequest_eq_resolveWith, hres] using h
    · obtain ⟨i, r0, hidx, hget, hfind, hid, hr1, hst1⟩ := resolveWith_some_elim hres
      intro r hr
      simp only [applyOp, approveRequest_eq_resolveWith, hres] at hr
      subst hst1
      rcases List.mem_or_eq_of_mem_set hr with hm | hm
      · exact h r hm
      · subst hm
        subst hr1
        simp [statusOk]
  | reject id =>
    rcases hres : resolveWith st id "rejected" now with _ | ⟨st1, r1⟩
    · simpa [applyOp, rejectRequest_eq_resolveWith, hres] using h
    · obtain ⟨i, r0, hidx, hget, hfind, hid, hr1, hst1⟩ := resolveWith_some_elim hres
      intro r hr
      simp only [applyOp, rejectRequest_eq_resolveWith, hres] at hr
      subst hst1
      rcases List.mem_or_eq_of_mem_set hr with hm | hm
      · exact h r hm
      · subst hm
        subst hr1
        simp [statusOk]

lemma statusOk_runFrom (events : List (Op × Nat)) :
    ∀ st, (∀ r ∈ st.login_requests, statusOk r = true) →
      ∀ r ∈ (runFrom st events).login_requests, statusOk r = true := by
  induction events with
  | nil =>
    intro st h
    exact h
  | cons e rest ih =>
    intro st h
    rw [runFrom_cons]
    exact ih _ (statusOk_applyOp h)

lemma statusOk_reachable {st : MockData} (h : Reachable st) :
    ∀ r ∈ st.login_requests, statusOk r = true := by
  obtain ⟨events, hev⟩ := h
  subst hev
  exact statusOk_runFrom events mockDataInit (by simp [mockDataInit])

lemma filter_status_partition (l : List LoginRequest)
    (h : ∀ r ∈ l, statusOk r = true) :
    (l.filter (fun r => r.status == "pending")).length
      + (l.filter (fun r => r.status == "approved")).length
      + (l.filter (fun r => r.status == "rejected")).length = l.length := by
  induction l with
  | nil => simp
  | cons a t ih =>
    have ha := h a (by simp)
    have ht : ∀ r ∈ t, statusOk r = true := fun r hr => h r (by simp [hr])
    have iht := ih ht
    have ha3 : a.status = "pending" ∨ a.status = "approved"
        ∨ a.status = "rejected" := by
      simpa [statusOk, or_assoc] using ha
    rcases ha3 with h1 | h1 | h1
    · rw [List.filter_cons_of_pos (by simp [h1]),
        List.filter_cons_of_neg (by simp [h1]),
        List.filter_cons_of_neg (by simp [h1])]
      simp only [List.length_cons]
      omega
    · rw [List.filter_cons_of_neg (by simp [h1]),
        List.filter_cons_of_pos (by simp [h1]),
        List.filter_cons_of_neg (by simp [h1])]
      simp only [List.length_cons]
      omega
    · rw [List.filter_cons_of_neg (by simp [h1]),
        List.filter_cons_of_neg (by simp [h1]),
        List.filter_cons_of_pos (by simp [h1])]
      simp only [List.length_cons]
      omega

lemma createdAts_submit (st : MockData) (u p : String) (ip : Option String)
    (now : Nat) :
    createdAts (applyOp st (.submit u p ip) now) = createdAts st ++ [now] := by
  simp [createdAts, listAll, applyOp, submitRequest]

lemma createdAts_approve (st : MockData) (id now : Nat) :
    createdAts (applyOp st (.approve id) now) = createdAts st := by
  rcases hres : resolveWith st id "approved" now with _ | ⟨st1, r1⟩
  · simp [applyOp, approveRequest_eq_resolveWith, hres]
  · obtain ⟨i, r, hidx, hget, hfind, hid, hr1, hst1⟩ := resolveWith_some_elim hres
    simp only [applyOp, approveRequest_eq_resolveWith, hres]
    subst hst1
    subst hr1
    unfold createdAts listAll
    simp only [List.map_set]
    have hm : (st.login_requests.map (fun q => q.created_at))[i]?
        = some r.created_at := by
      rw [List.getElem?_map, hget]
      rfl
    simpa using set_getElem_self hm

lemma createdAts_reject (st : MockData) (id now : Nat) :
    createdAts (applyOp st (.reject id) now) = createdAts st := by
  rcases hres : resolveWith st id "rejected" now with _ | ⟨st1, r1⟩
  · simp [applyOp, rejectRequest_eq_resolveWith, hres]
  · obtain ⟨i, r, hidx, hget, hfind, hid, hr1, hst1⟩ := resolveWith_some_elim hres
    simp only [applyOp, rejectRequest_eq_resolveWith, hres]
    subst hst1
    subst hr1
    unfold createdAts listAll
    simp only [List.map_set]
    have hm : (st.login_requests.map (fun q => q.created_at))[i]?
        = some r.created_at := by
      rw [List.getElem?_map, hget]
      rfl
    simpa using set_getElem_self hm

lemma createdAts_sorted_runFrom (events : List (Op × Nat)) :
    ∀ st, List.Pairwise (· ≤ ·) (createdAts st) →
      (∀ c ∈ createdAts st, ∀ t ∈ events.map Prod.snd, c ≤ t) →
      List.Pairwise (· ≤ ·) (events.map Prod.snd) →
      List.Pairwise (· ≤ ·) (createdAts (runFrom st events)) := by
  induction events with
  | nil =>
    intro st hs _ _
    exact hs
  | cons e rest ih =>
    intro st hs hb ht
    obtain ⟨op, now⟩ := e
    simp only [List.map_cons, List.pairwise_cons] at ht
    obtain ⟨hnow, hrest⟩ := ht
    rw [runFrom_cons]
    have hnowmem : now ∈ ((op, now) :: rest).map Prod.snd := by simp
    apply ih
    · cases op with
      | submit u2 p2 ip2 =>
        rw [createdAts_submit]
        rw [List.pairwise_append]
        exact ⟨hs, by simp, fun c hc t htm => by
          simp only [List.mem_singleton] at htm
          rw [htm]
          exact hb c hc now hnowmem⟩
      | approve id =>
        rw [createdAts_approve]
        exact hs
      | reject id =>
        rw [createdAts_reject]
        exact hs
    · intro c hc t htm
      cases op with
      | submit u2 p2 ip2 =>
        rw [createdAts_submit, List.mem_append, List.mem_singleton] at hc
        rcases hc with hc | hc
        · exact hb c hc t (by simp [htm])
        · subst hc
          exact hnow t htm
      | approve id =>
        rw [createdAts_approve] at hc
        exact hb c hc t (by simp [htm])
      | reject id =>
        rw [createdAts_reject] at hc
        exact hb c hc t (by simp [htm])
    · exact hrest

/-! Claim theorems. -/

/-- C1: the claim says that with no DATABASE_URL and outside production
every operation is served by the ephemeral mock backend.  In the source,
the selection guard `!process.env.DATABASE_URL && !process.env.NODE_ENV
=== 'production'` parses as `(!DATABASE_URL) && ((!NODE_ENV) ===
'production')`, a boolean strictly compared to a string: it is false for
every environment, so the mock branch of every handler is unreachable and
the durable query path always runs.  This theorem evaluates the embedded
guard at every environment value. -/
theorem mock_guard_never_true (databaseUrl nodeEnv : JSVal) :
    usingMockDb databaseUrl nodeEnv = false := by
  cases databaseUrl <;> cases nodeEnv <;>
    simp [usingMockDb, jsNot, jsStrictEq, jsTruthy]

/-- C2 (counterexample): after submitting one request as alice and then
approving it twice, alice has two attempt records but only one
non-pending request, so the claimed inequality fails on a reachable
state. -/
theorem audit_invariant_counterexample :
    Reachable (run exDoubleApprove) ∧
    ¬ (attemptCountFor (run exDoubleApprove) "alice"
        ≤ resolvedCountFor (run exDoubleApprove) "alice") :=
  ⟨⟨exDoubleApprove, rfl⟩, by decide⟩

/-- C2 (amended): for every state reached by a trace that never resolves
an already-terminal request, the attempt count for each username equals
(hence is at most) the count of that username's non-pending requests. -/
theorem audit_counts_agree_of_noReResolve (events : List (Op × Nat))
    (h : traceNoReResolve mockDataInit events = true) (u : String) :
    attemptCountFor (run events) u = resolvedCountFor (run events) u ∧
    attemptCountFor (run events) u ≤ resolvedCountFor (run events) u := by
  have heq := counts_runFrom events mockDataInit h (fun u2 => rfl) u
  exact ⟨heq, le_of_eq heq⟩

/-- Witness for the amended C2 at a concrete no-re-resolution trace. -/
theorem audit_counts_agree_witness :
    traceNoReResolve mockDataInit exSameTick = true ∧
    attemptCountFor (run exSameTick) "bob"
      = resolvedCountFor (run exSameTick) "bob" :=
  ⟨by decide, (audit_counts_agree_of_noReResolve exSameTick (by decide) "bob").1⟩

/-- C3: resolving an id whose record is already terminal does not fail:
both approve and reject succeed, overwrite status with the new outcome and
updated_at with the new time, and append one further LoginAttempt. -/
theorem resolve_terminal_permitted (st : MockData) (id now : Nat)
    (r : LoginRequest) (hget : getRequestById st id = some r)
    (hterm : r.status = "approved" ∨ r.status = "rejected") :
    (∃ stA rA, approveRequest st id now = some (stA, rA) ∧
      rA.status = "approved" ∧ rA.updated_at = now ∧
      stA.login_attempts.length = st.login_attempts.length + 1) ∧
    (∃ stR rR, rejectRequest st id now = some (stR, rR) ∧
      rR.status = "rejected" ∧ rR.updated_at = now ∧
      stR.login_attempts.length = st.login_attempts.length + 1) := by
  unfold getRequestById at hget
  obtain ⟨i, hidx, hgeti⟩ := findIndexOf_of_find? hget
  have hA := @resolveWith_found st id "approved" now i r hidx hgeti
  rw [← approveRequest_eq_resolveWith] at hA
  have hR := @resolveWith_found st id "rejected" now i r hidx hgeti
  rw [← rejectRequest_eq_resolveWith] at hR
  exact ⟨⟨_, _, hA, rfl, rfl, by simp⟩, ⟨_, _, hR, rfl, rfl, by simp⟩⟩

/-- Witness for C3 at a state whose only record is already approved. -/
theorem resolve_terminal_permitted_witness :
    (∃ stA rA, approveRequest exStApproved 1 3 = some (stA, rA) ∧
      rA.status = "approved" ∧ rA.updated_at = 3 ∧
      stA.login_attempts.length = exStApproved.login_attempts.length + 1) ∧
    (∃ stR rR, rejectRequest exStApproved 1 3 = some (stR, rR) ∧
      rR.status = "rejected" ∧ rR.updated_at = 3 ∧
      stR.login_attempts.length = exStApproved.login_attempts.length + 1) :=
  resolve_terminal_permitted exStApproved 1 3 exReqApproved (by decide)
    (Or.inl (by decide))

/-- C4: a successful submit returns (and stores) a request with status
pending, with equal creation and update timestamps, with the loopback
default ip when the argument is omitted, and appends it to the store. -/
theorem submit_creates_pending (st : MockData) (u p : String)
    (ip : Option String) (now : Nat) :
    (submitRequest st u p ip now).2.status = "pending" ∧
    (submitRequest st u p ip now).2.created_at
      = (submitRequest st u p ip now).2.updated_at ∧
    (submitRequest st u p none now).2.ip_address = "127.0.0.1" ∧
    (submitRequest st u p ip now).1.login_requests
      = st.login_requests ++ [(submitRequest st u p ip now).2] :=
  ⟨rfl, rfl, rfl, rfl⟩

/-- C5: every successful resolve appends exactly one LoginAttempt whose
status is the outcome and whose username and ip address are those of the
resolved request, timestamped at resolution time; submit appends no
attempt. -/
theorem resolve_appends_one_attempt (st st' : MockData) (id now : Nat)
    (r' : LoginRequest)
    (h : approveRequest st id now = some (st', r') ∨
         rejectRequest st id now = some (st', r')) :
    (∃ a : LoginAttempt, st'.login_attempts = st.login_attempts ++ [a] ∧
       a.status = r'.status ∧ a.username = r'.username ∧
       a.ip_address = r'.ip_address ∧ a.created_at = now) ∧
    (∀ u2 p2 ip2 t2, ((submitRequest st u2 p2 ip2 t2).1).login_attempts
        = st.login_attempts) := by
  constructor
  · rcases h with h | h
    · rw [approveRequest_eq_resolveWith] at h
      obtain ⟨i, r, hidx, hget, hfind, hid, hr1, hst1⟩ := resolveWith_some_elim h
      subst hst1
      subst hr1
      exact ⟨_, rfl, rfl, rfl, rfl, rfl⟩
    · rw [rejectRequest_eq_resolveWith] at h
      obtain ⟨i, r, hidx, hget, hfind, hid, hr1, hst1⟩ := resolveWith_some_elim h
      subst hst1
      subst hr1
      exact ⟨_, rfl, rfl, rfl, rfl, rfl⟩
  · intro u2 p2 ip2 t2
    rfl

/-- Witness for C5 at a concrete approval. -/
theorem resolve_appends_one_attempt_witness :
    (∃ a : LoginAttempt,
       exStApproved.login_attempts = exSubmitted.login_attempts ++ [a] ∧
       a.status = exReqApproved.status ∧ a.username = exReqApproved.username ∧
       a.ip_address = exReqApproved.ip_address ∧ a.created_at = 2) ∧
    (∀ u2 p2 ip2 t2, ((submitRequest exSubmitted u2 p2 ip2 t2).1).login_attempts
        = exSubmitted.login_attempts) :=
  resolve_appends_one_attempt exSubmitted exStApproved 1 2 exReqApproved
    (Or.inl (by decide))

/-- C6 (counterexample): two submissions at times 1 then 2 leave listAll
in insertion order, so its first element was created before its second:
the list is not ordered by created_at descending. -/
theorem listAll_descending_counterexample :
    Reachable (run exTwoSubmits) ∧
    listAll (run exTwoSubmits) = [exReqA, exReqB] ∧
    ¬ (exReqB.created_at ≤ exReqA.created_at) :=
  ⟨⟨exTwoSubmits, rfl⟩, by decide, by decide⟩

/-- C6 (amended): in the ephemeral backend listAll returns the records in
insertion order, which is created_at ascending whenever the operation
times are nondecreasing; only the durable branch's SQL query orders
descending. -/
theorem listAll_insertion_order_ascending (events : List (Op × Nat))
    (h : List.Pairwise (· ≤ ·) (events.map Prod.snd)) :
    List.Pairwise (fun x y : LoginRequest => x.created_at ≤ y.created_at)
      (listAll (run events)) := by
  have hs := createdAts_sorted_runFrom events mockDataInit
    (by simp [createdAts, listAll, mockDataInit])
    (by
      intro c hc
      simp [createdAts, listAll, mockDataInit] at hc)
    h
  rw [createdAts, List.pairwise_map] at hs
  exact hs

/-- Witness for the amended C6 at a concrete two-submission trace. -/
theorem listAll_insertion_order_ascending_witness :
    List.Pairwise (fun a b : Nat => a ≤ b) (exTwoSubmits.map Prod.snd) ∧
    List.Pairwise (fun x y : LoginRequest => x.created_at ≤ y.created_at)
      (listAll (run exTwoSubmits)) :=
  ⟨by decide, listAll_insertion_order_ascending exTwoSubmits (by decide)⟩

/-- C7: in every reachable state the statistics satisfy
pending + approved + rejected = total. -/
theorem stats_partition (st : MockData) (h : Reachable st) (t : Nat) :
    (computeStats st t).pending + (computeStats st t).approved
      + (computeStats st t).rejected = (computeStats st t).total :=
  filter_status_partition st.login_requests (statusOk_reachable h)

/-- Witness for C7 at the reachable startup state. -/
theorem stats_partition_witness :
    Reachable mockDataInit ∧
    (computeStats mockDataInit 0).pending + (computeStats mockDataInit 0).approved
      + (computeStats mockDataInit 0).rejected
      = (computeStats mockDataInit 0).total :=
  ⟨⟨[], rfl⟩, stats_partition mockDataInit ⟨[], rfl⟩ 0⟩

/-- C8: in every state (reachable or not) the total field of the
statistics equals the length of the sequence listAll returns. -/
theorem stats_total_eq_listAll_length (st : MockData) (t : Nat) :
    (computeStats st t).total = (listAll st).length := rfl

/-- C9 (counterexample): submitting at time 5 and approving at the same
time 5 yields an approved record whose updated_at equals its created_at,
so updated_at is not strictly greater. -/
theorem resolve_same_tick_counterexample :
    Reachable (run exSameTick) ∧
    getRequestById (run exSameTick) 1 = some exReqSameTick ∧
    exReqSameTick.status = "approved" ∧
    ¬ (exReqSameTick.created_at < exReqSameTick.updated_at) :=
  ⟨⟨exSameTick, rfl⟩, by decide, by decide, by decide⟩

/-- C9 (amended): approving a pending request and reading it back yields
status approved with updated_at equal to the resolution time; updated_at
is strictly greater than created_at whenever the resolution happens
strictly after creation. -/
theorem resolve_then_get_strict (st : MockData) (id now : Nat)
    (r : LoginRequest) (hget : getRequestById st id = some r)
    (hpend : r.status = "pending") (hlt : r.created_at < now) :
    ∃ st' r', approveRequest st id now = some (st', r') ∧
      getRequestById st' id = some r' ∧ r'.status = "approved" ∧
      r'.created_at = r.created_at ∧ r'.updated_at = now ∧
      r'.created_at < r'.updated_at := by
  unfold getRequestById at hget
  have hpr := List.find?_some hget
  obtain ⟨i, hidx, hgeti⟩ := findIndexOf_of_find? hget
  have hfound := @resolveWith_found st id "approved" now i r hidx hgeti
  rw [← approveRequest_eq_resolveWith] at hfound
  refine ⟨_, _, hfound, ?_, rfl, rfl, rfl, hlt⟩
  unfold getRequestById
  exact find?_set_of_findIndexOf hidx (by simpa using hpr)

/-- Witness for the amended C9 at a concrete pending request. -/
theorem resolve_then_get_strict_witness :
    ∃ st' r', approveRequest exSubmitted 1 2 = some (st', r') ∧
      getRequestById st' 1 = some r' ∧ r'.status = "approved" ∧
      r'.created_at = exReqPending.created_at ∧ r'.updated_at = 2 ∧
      r'.created_at < r'.updated_at :=
  resolve_then_get_strict exSubmitted 1 2 exReqPending (by decide) (by decide)
    (by decide)

/-- C10: a submit whose ipAddress argument is present but falsy (the
empty string) stores the loopback default, not the submitted value: the
default is applied by truthiness, not only on omission. -/
theorem submit_empty_ip_defaults (st : MockData) (u p : String) (now : Nat) :
    (submitRequest st u p (some "") now).2.ip_address = "127.0.0.1" ∧
    (submitRequest st u p (some "") now).2.ip_address ≠ "" := by
  constructor
  · simp [submitRequest, jsOrString]
  · simp [submitRequest, jsOrString]

end Discovery
